import Mathlib

/-!
# Buffer lifecycle and frame pacing of the SHM/DMA benchmark (`src/main.cpp`)

A shallow embedding of the frame pacer of `main.cpp`: the round-robin index
helpers `next`/`prev`, the per-buffer lifecycle flags, the two Wayland event
handlers (`wl_buffer_handle_release`, `wl_callback_handle_done`), the
`render`/`renderTestDraw` pair and the two run starters.

Conventions.
* C `int`/`long long` values are `Int`; the values handled here (indices in
  `0..2`, frame counters of a ten second run, timestamps) stay far from the
  machine limits, so no wrap-around is modelled for them.  `nanos` is an
  `unsigned long long` accumulator and is reduced modulo `2^64`.
* `clock_gettime(CLOCK_MONOTONIC, _)` is an input of the program: a clock is a
  function from the number of readings made so far to the time read.
* Array accesses `toplevel->buffers[k]` with `k` outside `0..2` are undefined
  behaviour in the source; the model returns `none` there.
* Fields marked "ghost" do not exist in the source; they record what the
  program did (requests sent to the compositor, buffers painted).
-/

namespace Pacer

/-! ## Round-robin helpers -/

/-- The constant `BUFFS` of the source: the size of each buffer pool. -/
def BUFFS : Int := 3

/-- The source function `next(i, max)`: the index after `i`, wrapping at `max - 1`. -/
def next (i max : Int) : Int :=
  if i = max - 1 then 0 else i + 1

/-- The source function `prev(i, max)`: the index before `i`, wrapping at `0`. -/
def prev (i max : Int) : Int :=
  if i = 0 then max - 1 else i - 1

/-! ## Data model -/

/-- A `struct timespec` as filled by `clock_gettime`. -/
structure Timespec where
  tv_sec : Int
  tv_nsec : Int
deriving DecidableEq, Repr

/-- A monotonic clock as seen by the program: the `n`-th reading (from 0). -/
abbrev Clock := Nat → Timespec

/-- The lifecycle flags of `struct Buffer` with their initial values.  The
geometry, mapping and handle fields are never changed by the pacer and are
left out. -/
structure Buffer where
  realeased : Bool := true
  commited : Bool := true
  callbacked : Bool := true
  rendered : Bool := false
deriving DecidableEq, Repr

/-- The two static arrays `shmBuffers` and `dmaBuffers`. -/
inductive PoolSel where
  | shm
  | dma
deriving DecidableEq, Repr

/-- The identity of a buffer (a `Buffer*` of the source): its array and slot. -/
structure BufId where
  pool : PoolSel
  idx : Fin 3
deriving DecidableEq, Repr

/-- Requests and buffer accesses recorded in the ghost log.
* `dmaWriteBegin`/`dmaWriteEnd`: the two `DMA_BUF_IOCTL_SYNC` calls of `render`;
* `paint b r c`: the QPainter batch of `render` on `b`, with the values of
  `realeased` and `commited` of `b` when the batch starts;
* `frame b`: `wl_surface_frame` plus `wl_callback_add_listener` with user data `b`;
* `commit b r`: `wl_surface_attach`/`damage`/`commit` of `b`, with the value of
  `realeased` of `b` when it is committed. -/
inductive Action where
  | dmaWriteBegin (b : BufId)
  | paint (b : BufId) (realeased commited : Bool)
  | dmaWriteEnd (b : BufId)
  | frame (b : BufId)
  | commit (b : BufId) (realeased : Bool)
deriving DecidableEq, Repr

/-- The fields of `struct Toplevel` used by the pacer. -/
structure Toplevel where
  pendingCallback : Bool := false
  buffers : PoolSel := PoolSel.shm
  i : Int := 0
deriving DecidableEq, Repr

/-- The global state of the program, plus ghost fields.
* `bufs`: the buffers of the two static arrays, addressed by array and slot;
* `clockReads` (ghost): how many times the clock has been read;
* `callbacks` (ghost): the user data of the frame callbacks that were requested
  and are not yet destroyed;
* `log` (ghost): what the current run did so far. -/
structure State where
  bufs : BufId → Buffer
  toplevel : Toplevel
  testingDMA : Bool
  benchFinished : Bool
  renderedFrames : Int
  renderStart : Timespec
  renderEnd : Timespec
  nanos : Nat
  writes : Int
  clockReads : Nat
  callbacks : List BufId
  log : List Action

/-- The state once `main` has created the buffers and the toplevel: every flag
has its initialiser, `toplevel->buffers = shmBuffers` (set by `createToplevel`),
the counters and timestamps are zero. -/
def init : State where
  bufs := fun _ => {}
  toplevel := {}
  testingDMA := false
  benchFinished := false
  renderedFrames := 0
  renderStart := ⟨0, 0⟩
  renderEnd := ⟨0, 0⟩
  nanos := 0
  writes := 0
  clockReads := 0
  callbacks := []
  log := []

/-- Store through a buffer pointer: `*b = v`. -/
def store (m : BufId → Buffer) (b : BufId) (v : Buffer) : BufId → Buffer :=
  fun c => if c = b then v else m c

/-- Array index from a C `int`: `none` outside `0..2`. -/
def toIdx (i : Int) : Option (Fin 3) :=
  if i = 0 then some 0 else if i = 1 then some 1 else if i = 2 then some 2 else none

/-- The value `(e.tv_sec - s.tv_sec) * 1000000000LL + (e.tv_nsec - s.tv_nsec)`. -/
def diff_ns (e s : Timespec) : Int :=
  (e.tv_sec - s.tv_sec) * 1000000000 + (e.tv_nsec - s.tv_nsec)

/-! ## The pacer -/

/-- The source function `render(buffer)`: two clock readings around the write
section, the fences when `testingDMA`, then `nanos += elapsed_ns; writes++`. -/
def render (clk : Clock) (buffer : BufId) (s : State) : State :=
  let start_time := clk s.clockReads
  let end_time := clk (s.clockReads + 1)
  let elapsed_ns := diff_ns end_time start_time
  let batch := Action.paint buffer (s.bufs buffer).realeased (s.bufs buffer).commited
  let acts :=
    if s.testingDMA then [Action.dmaWriteBegin buffer, batch, Action.dmaWriteEnd buffer]
    else [batch]
  { s with
    clockReads := s.clockReads + 2
    nanos := (((s.nanos : Int) + elapsed_ns) % 2 ^ 64).toNat
    writes := s.writes + 1
    log := s.log ++ acts }

/-- The block that the source repeats at each of its three submission sites:
`pendingCallback = true`, request a frame callback with user data `buffer`,
attach, damage and commit `buffer`, then `realeased = false; commited = true;
callbacked = false`. -/
def submit (buffer : BufId) (s : State) : State :=
  { s with
    toplevel := { s.toplevel with pendingCallback := true }
    callbacks := s.callbacks ++ [buffer]
    log := s.log ++ [Action.frame buffer, Action.commit buffer (s.bufs buffer).realeased]
    bufs := store s.bufs buffer
      { s.bufs buffer with realeased := false, commited := true, callbacked := false } }

/-- The source function `renderTestDraw()`. -/
def renderTestDraw (clk : Clock) (s : State) : Option State :=
  if s.testingDMA then
    match toIdx s.toplevel.i, toIdx (prev s.toplevel.i BUFFS) with
    | some k, some p =>
      let s1 := render clk ⟨s.toplevel.buffers, k⟩ s
      let s2 := submit ⟨s1.toplevel.buffers, p⟩ s1
      some { s2 with toplevel := { s2.toplevel with i := next s2.toplevel.i BUFFS } }
    | _, _ => none
  else
    let buffer : BufId := ⟨s.toplevel.buffers, 0⟩
    if (s.bufs buffer).realeased && (s.bufs buffer).commited then
      let s1 := render clk buffer s
      let s2 := { s1 with bufs := store s1.bufs buffer { s1.bufs buffer with commited := false } }
      if s2.toplevel.pendingCallback then some s2
      else some (submit buffer s2)
    else some s

/-- The value `elapsed_ns` computed by `wl_callback_handle_done`, as written
in the source: the nanosecond term subtracts `renderEnd.tv_nsec` from itself. -/
def callback_elapsed_ns (renderStart renderEnd : Timespec) : Int :=
  (renderEnd.tv_sec - renderStart.tv_sec) * 1000000000 + (renderEnd.tv_nsec - renderEnd.tv_nsec)

/-- The source function `wl_callback_handle_done`, for a callback whose user
data is `buffer`.  The `qDebug` report of the expiry branch is not modelled. -/
def wl_callback_handle_done (clk : Clock) (buffer : BufId) (s : State) : Option State :=
  let s1 := { s with
    callbacks := s.callbacks.erase buffer
    renderedFrames := s.renderedFrames + 1
    bufs := store s.bufs buffer { s.bufs buffer with callbacked := true } }
  let s3 := { s1 with
    toplevel := { s1.toplevel with pendingCallback := false }
    renderEnd := clk s1.clockReads
    clockReads := s1.clockReads + 1 }
  let elapsed_ns := callback_elapsed_ns s3.renderStart s3.renderEnd
  if elapsed_ns ≥ 1000000000 * 10 then
    some { s3 with benchFinished := true }
  else if !s3.testingDMA && !(s3.bufs ⟨s3.toplevel.buffers, 0⟩).commited then
    some (submit ⟨s3.toplevel.buffers, 0⟩ s3)
  else
    renderTestDraw clk s3

/-- The source function `wl_buffer_handle_release`, for the buffer `buffer`. -/
def wl_buffer_handle_release (clk : Clock) (buffer : BufId) (s : State) : Option State :=
  let s1 := { s with bufs := store s.bufs buffer { s.bufs buffer with realeased := true } }
  if !s1.testingDMA then renderTestDraw clk s1 else some s1

/-- The source function `renderTestSHMBegin()`; the ghost log starts afresh. -/
def renderTestSHMBegin (clk : Clock) (s : State) : Option State :=
  renderTestDraw clk { s with
    writes := 0
    testingDMA := false
    renderedFrames := 0
    nanos := 0
    toplevel := { s.toplevel with buffers := PoolSel.shm }
    renderStart := clk s.clockReads
    clockReads := s.clockReads + 1
    log := [] }

/-- The source function `renderTestDMABegin()`; the ghost log starts afresh. -/
def renderTestDMABegin (clk : Clock) (s : State) : Option State :=
  let s1 := { s with
    writes := 0
    testingDMA := true
    renderedFrames := 0
    nanos := 0
    toplevel := { s.toplevel with buffers := PoolSel.dma }
    renderStart := clk s.clockReads
    clockReads := s.clockReads + 1
    log := [] }
  let s2 := render clk ⟨s1.toplevel.buffers, 0⟩ s1
  renderTestDraw clk { s2 with toplevel := { s2.toplevel with i := 1 } }

/-- The two events the compositor delivers to the pacer, each with the buffer
it is about. -/
inductive Event where
  | release (b : BufId)
  | done (b : BufId)
deriving DecidableEq, Repr

/-- Dispatch of one event to its handler. -/
def handle (clk : Clock) (e : Event) (s : State) : Option State :=
  match e with
  | Event.release b => wl_buffer_handle_release clk b s
  | Event.done b => wl_callback_handle_done clk b s

/-- Dispatch of a sequence of events, in delivery order. -/
def run (clk : Clock) : List Event → State → Option State
  | [], s => some s
  | e :: es, s => (handle clk e s).bind (run clk es)

/-- The step of `main` between the two runs: once the dispatch loop sees
`benchFinished` it resets the flag and leaves, and `renderTestDMABegin()` is
called (the `usleep` in between handles no event). -/
def nextRun (clk : Clock) (s : State) : Option State :=
  if s.benchFinished then renderTestDMABegin clk { s with benchFinished := false } else none

/-- A callback event can be delivered only for a callback that was requested
and is not yet destroyed; release events are not constrained. -/
def deliverable (s : State) : Event → Bool
  | Event.release _ => true
  | Event.done b => decide (b ∈ s.callbacks)

/-- Every event of the sequence is deliverable in the state it arrives in. -/
def wellFormed (clk : Clock) : List Event → State → Bool
  | [], _ => true
  | e :: es, s =>
    deliverable s e &&
      (match handle clk e s with
       | some s1 => wellFormed clk es s1
       | none => false)

/-- The part of the log written between the states `s` and `s1`. -/
def newLog (s s1 : State) : List Action :=
  s1.log.drop s.log.length

/-- The buffers painted, in order. -/
def paintTargets (l : List Action) : List BufId :=
  l.filterMap fun a => match a with
    | Action.paint b _ _ => some b
    | _ => none

/-- The buffers committed, in order. -/
def commitTargets (l : List Action) : List BufId :=
  l.filterMap fun a => match a with
    | Action.commit b _ => some b
    | _ => none

/-- The buffers for which a frame callback was requested, in order. -/
def frameTargets (l : List Action) : List BufId :=
  l.filterMap fun a => match a with
    | Action.frame b => some b
    | _ => none

/-- Slot `k mod 3` of `dmaBuffers`. -/
def dmaSlot (k : Nat) : BufId :=
  ⟨PoolSel.dma, ⟨k % 3, Nat.mod_lt k (by decide)⟩⟩

/-! ## The write sections, call by call -/

/-- What a write routine does to a buffer: the two `DMA_BUF_IOCTL_SYNC` calls
(`DMA_BUF_SYNC_START | DMA_BUF_SYNC_WRITE`, `DMA_BUF_SYNC_END | DMA_BUF_SYNC_WRITE`)
and the QPainter calls that write pixels (colours are not modelled). -/
inductive BufOp where
  | syncStartWrite (b : BufId)
  | syncEndWrite (b : BufId)
  | drawRect (b : BufId) (x y w h : Int)
  | drawLine (b : BufId) (x1 y1 x2 y2 : Int)
deriving DecidableEq, Repr

/-- The source function `dmaWriteBegin`. -/
def dmaWriteBegin (b : BufId) : List BufOp := [BufOp.syncStartWrite b]

/-- The source function `dmaWriteEnd`. -/
def dmaWriteEnd (b : BufId) : List BufOp := [BufOp.syncEndWrite b]

/-- A clock that always reads zero: no run ever expires. -/
def frozenClock : Clock := fun _ => ⟨0, 0⟩

/-- A clock that reads zero three times and ten seconds from then on: the
first callback of the host-memory run meets the budget. -/
def lateClock : Clock := fun n => if n < 3 then ⟨0, 0⟩ else ⟨10, 0⟩

/-- Buffer 0 of `shmBuffers`. -/
def shm0 : BufId := ⟨PoolSel.shm, 0⟩

/-- The host-memory run right after `renderTestSHMBegin`, with `frozenClock`. -/
def shmSampleBegin : State :=
  (renderTestSHMBegin frozenClock init).getD init

/-- The host-memory run after its first callback and the release of buffer 0. -/
def shmSample : State :=
  (run frozenClock [Event.done shm0, Event.release shm0] shmSampleBegin).getD init

/-- The host-memory run after `renderTestSHMBegin` and its first frame
callback: nothing is pending and buffer 0 is not yet released. -/
def shmIdle : State :=
  (run frozenClock [Event.done shm0] shmSampleBegin).getD init

/-- The host-memory run after `renderTestSHMBegin` and the release of buffer 0:
the buffer is painted again and waits for the pending callback. -/
def shmPainted : State :=
  (run frozenClock [Event.release shm0] shmSampleBegin).getD init

/-- The state `shmPainted` after the frame callback: buffer 0 is resubmitted. -/
def shmResubmitted : State :=
  (wl_callback_handle_done frozenClock shm0 shmPainted).getD init

/-- The host-memory run right after `renderTestSHMBegin`, with `lateClock`. -/
def shmLateBegin : State :=
  (renderTestSHMBegin lateClock init).getD init

/-- The host-memory run with `lateClock`, ended by its first callback. -/
def shmFinished : State :=
  ((renderTestSHMBegin lateClock init).bind (run lateClock [Event.done shm0])).getD init

/-- The whole program with `lateClock`: the host-memory run ends at its first
callback, then the GPU-shared run is started. -/
def dmaSampleBegin : State :=
  (nextRun lateClock shmFinished).getD init

/-- The GPU-shared run of `dmaSampleBegin` after two frame callbacks. -/
def dmaSample : State :=
  (run lateClock [Event.done (dmaSlot 0), Event.done (dmaSlot 1)] dmaSampleBegin).getD init

/-- The first submission: `renderTestDraw` on the initial state. -/
def drawSample : State :=
  (renderTestDraw frozenClock init).getD init

/-- The state `drawSample` after the frame callback of that submission. -/
def drawSampleDone : State :=
  (run frozenClock [Event.done shm0] drawSample).getD init

/-- A clock whose first reading (the run start) is 0.9 s, the next two (around
the first write) 1 s, and every later one 10 s. -/
def skewClock : Clock := fun n =>
  if n = 0 then ⟨0, 900000000⟩ else if n < 3 then ⟨1, 0⟩ else ⟨10, 0⟩

/-- The host-memory run right after `renderTestSHMBegin`, with `skewClock`. -/
def shmSkewBegin : State :=
  (renderTestSHMBegin skewClock init).getD init

/-- The GPU-shared run of `dmaSampleBegin` after its first frame callback. -/
def dmaFirstDone : State :=
  (wl_callback_handle_done lateClock (dmaSlot 0) dmaSampleBegin).getD init

/-! ## Invariants -/

/-- What holds throughout a host-memory run: the strategy flags, the flag
relation of buffer 0, and what the log may contain. -/
def ShmInv (s : State) : Prop :=
  s.testingDMA = false ∧ s.toplevel.buffers = PoolSel.shm ∧
  ((s.bufs shm0).commited = false → (s.bufs shm0).realeased = true) ∧
  (∀ b r c, Action.paint b r c ∈ s.log → b = shm0 ∧ r = true ∧ c = true) ∧
  (∀ b r, Action.commit b r ∈ s.log → b = shm0 ∧ r = true)

/-- The frame callbacks outstanding match `toplevel->pendingCallback`: one when
it is true, none when it is false. -/
def CbInv (s : State) : Prop :=
  s.callbacks.length = if s.toplevel.pendingCallback then 1 else 0

/-- What holds throughout a GPU-shared run: `n + 2` writes went to the slots
`0, 1, 2, 0, ..` in order, the first `n + 1` of them were submitted in the same
order, and the cursor is the slot after the last write. -/
def DmaInv (s : State) : Prop :=
  s.testingDMA = true ∧ s.toplevel.buffers = PoolSel.dma ∧
  ∃ n : Nat, paintTargets s.log = (List.range (n + 2)).map dmaSlot ∧
    commitTargets s.log = (List.range (n + 1)).map dmaSlot ∧
    s.toplevel.i = (((n + 2) % 3 : Nat) : Int) ∧
    s.writes = ((n + 2 : Nat) : Int)

/-- What a host-memory run leaves alone: every buffer other than buffer 0 of
`shmBuffers` keeps its initial flags, and the cursor keeps its initial value. -/
def OthersInv (s : State) : Prop :=
  (∀ b, b ≠ shm0 → s.bufs b = init.bufs b) ∧ s.toplevel.i = init.toplevel.i

/-- The seconds read from the clock never go back. -/
def SecondsMonotone (clk : Clock) : Prop :=
  ∀ n m, n ≤ m → (clk n).tv_sec ≤ (clk m).tv_sec

/-- Once `benchFinished` is set, some earlier clock reading met the budget
check against the start of the current run. -/
def ExpiredInv (clk : Clock) (s : State) : Prop :=
  s.benchFinished = true →
    ∃ k, k < s.clockReads ∧ 1000000000 * 10 ≤ callback_elapsed_ns s.renderStart (clk k)

/-! ## Theorems -/

/-- C1: for every index `i` with `0 ≤ i < 3`, `next i 3 = (i + 1) mod 3`,
`prev i 3 = (i - 1 + 3) mod 3`, and three applications of `next` give `i` back. -/
theorem next_prev_cycle (i : Int) (h0 : 0 ≤ i) (h3 : i < 3) :
    next i BUFFS = (i + 1) % 3 ∧ prev i BUFFS = (i - 1 + 3) % 3 ∧
      next (next (next i BUFFS) BUFFS) BUFFS = i := by
  have h : i = 0 ∨ i = 1 ∨ i = 2 := by omega
  rcases h with h | h | h <;> subst h <;> decide

/-- Witness for `next_prev_cycle` at index 2. -/
theorem next_prev_cycle_witness :
    (0 : Int) ≤ 2 ∧ (2 : Int) < 3 ∧ next 2 BUFFS = (2 + 1) % 3 ∧ prev 2 BUFFS = (2 - 1 + 3) % 3 ∧
      next (next (next 2 BUFFS) BUFFS) BUFFS = 2 :=
  ⟨by decide, by decide, next_prev_cycle 2 (by decide) (by decide)⟩

/-! ### Field-by-field description of `store`, `render` and `submit` -/

@[simp] theorem store_apply (m : BufId → Buffer) (b c : BufId) (v : Buffer) :
    store m b v c = if c = b then v else m c := rfl

@[simp] theorem render_bufs (clk : Clock) (b : BufId) (s : State) :
    (render clk b s).bufs = s.bufs := rfl

@[simp] theorem render_toplevel (clk : Clock) (b : BufId) (s : State) :
    (render clk b s).toplevel = s.toplevel := rfl

@[simp] theorem render_testingDMA (clk : Clock) (b : BufId) (s : State) :
    (render clk b s).testingDMA = s.testingDMA := rfl

@[simp] theorem render_benchFinished (clk : Clock) (b : BufId) (s : State) :
    (render clk b s).benchFinished = s.benchFinished := rfl

@[simp] theorem render_callbacks (clk : Clock) (b : BufId) (s : State) :
    (render clk b s).callbacks = s.callbacks := rfl

@[simp] theorem render_writes (clk : Clock) (b : BufId) (s : State) :
    (render clk b s).writes = s.writes + 1 := rfl

@[simp] theorem render_renderedFrames (clk : Clock) (b : BufId) (s : State) :
    (render clk b s).renderedFrames = s.renderedFrames := rfl

@[simp] theorem render_renderStart (clk : Clock) (b : BufId) (s : State) :
    (render clk b s).renderStart = s.renderStart := rfl

@[simp] theorem render_clockReads (clk : Clock) (b : BufId) (s : State) :
    (render clk b s).clockReads = s.clockReads + 2 := rfl

theorem render_log (clk : Clock) (b : BufId) (s : State) :
    (render clk b s).log = s.log ++
      (if s.testingDMA then
        [Action.dmaWriteBegin b, Action.paint b (s.bufs b).realeased (s.bufs b).commited,
          Action.dmaWriteEnd b]
       else [Action.paint b (s.bufs b).realeased (s.bufs b).commited]) := rfl

@[simp] theorem submit_bufs (b : BufId) (s : State) :
    (submit b s).bufs = store s.bufs b
      { s.bufs b with realeased := false, commited := true, callbacked := false } := rfl

@[simp] theorem submit_pendingCallback (b : BufId) (s : State) :
    (submit b s).toplevel.pendingCallback = true := rfl

@[simp] theorem submit_buffers (b : BufId) (s : State) :
    (submit b s).toplevel.buffers = s.toplevel.buffers := rfl

@[simp] theorem submit_i (b : BufId) (s : State) :
    (submit b s).toplevel.i = s.toplevel.i := rfl

@[simp] theorem submit_testingDMA (b : BufId) (s : State) :
    (submit b s).testingDMA = s.testingDMA := rfl

@[simp] theorem submit_benchFinished (b : BufId) (s : State) :
    (submit b s).benchFinished = s.benchFinished := rfl

@[simp] theorem submit_callbacks (b : BufId) (s : State) :
    (submit b s).callbacks = s.callbacks ++ [b] := rfl

@[simp] theorem submit_writes (b : BufId) (s : State) :
    (submit b s).writes = s.writes := rfl

@[simp] theorem submit_renderedFrames (b : BufId) (s : State) :
    (submit b s).renderedFrames = s.renderedFrames := rfl

@[simp] theorem submit_renderStart (b : BufId) (s : State) :
    (submit b s).renderStart = s.renderStart := rfl

@[simp] theorem submit_clockReads (b : BufId) (s : State) :
    (submit b s).clockReads = s.clockReads := rfl

@[simp] theorem submit_log (b : BufId) (s : State) :
    (submit b s).log = s.log ++ [Action.frame b, Action.commit b (s.bufs b).realeased] := rfl

/-! ### The host-memory run -/

/-- In host-memory mode `renderTestDraw` always returns, in one of three ways:
nothing to do, paint only (a callback is pending), or paint and submit. -/
theorem renderTestDraw_shm (clk : Clock) (s : State) (htd : s.testingDMA = false)
    (hb : s.toplevel.buffers = PoolSel.shm) :
    (((s.bufs shm0).realeased = false ∨ (s.bufs shm0).commited = false) ∧
      renderTestDraw clk s = some s) ∨
    ((s.bufs shm0).realeased = true ∧ (s.bufs shm0).commited = true ∧
      s.toplevel.pendingCallback = true ∧
      renderTestDraw clk s = some
        { render clk shm0 s with
          bufs := store s.bufs shm0 { s.bufs shm0 with commited := false } }) ∨
    ((s.bufs shm0).realeased = true ∧ (s.bufs shm0).commited = true ∧
      s.toplevel.pendingCallback = false ∧
      renderTestDraw clk s = some
        (submit shm0 { render clk shm0 s with
          bufs := store s.bufs shm0 { s.bufs shm0 with commited := false } })) := by
  unfold renderTestDraw
  simp only [htd, hb]
  by_cases hr : (s.bufs shm0).realeased = true <;> by_cases hc : (s.bufs shm0).commited = true <;>
    by_cases hp : s.toplevel.pendingCallback = true <;>
    simp_all [shm0]

theorem shmInv_begin (clk : Clock) (sB : State)
    (h : renderTestSHMBegin clk init = some sB) : ShmInv sB := by
  simp [renderTestSHMBegin, renderTestDraw, init, render, submit, shm0] at h
  subst h
  simp [ShmInv, shm0]

theorem shmInv_renderTestDraw (clk : Clock) (s s1 : State) (hs : ShmInv s)
    (h : renderTestDraw clk s = some s1) : ShmInv s1 := by
  obtain ⟨htd, hb, hf, hp, hc⟩ := hs
  rcases renderTestDraw_shm clk s htd hb with ⟨_, h1⟩ | ⟨hr, hcm, hpc, h1⟩ | ⟨hr, hcm, hpc, h1⟩
  · rw [h1] at h
    cases h
    exact ⟨htd, hb, hf, hp, hc⟩
  · rw [h1] at h
    cases h
    refine ⟨htd, hb, ?_, ?_, ?_⟩
    · intro _
      simpa using hr
    · intro b r c hm
      simp only [render_log, htd, List.mem_append, List.mem_singleton] at hm
      rcases hm with hm | hm
      · exact hp b r c hm
      · simp at hm
        obtain ⟨rfl, rfl, rfl⟩ := hm
        exact ⟨rfl, hr, hcm⟩
    · intro b r hm
      simp only [render_log, htd, List.mem_append, List.mem_singleton] at hm
      rcases hm with hm | hm
      · exact hc b r hm
      · simp at hm
  · rw [h1] at h
    cases h
    refine ⟨htd, hb, ?_, ?_, ?_⟩
    · simp
    · intro b r c hm
      simp only [submit_log, render_log, htd, List.mem_append, List.mem_singleton] at hm
      rcases hm with (hm | hm) | hm
      · exact hp b r c hm
      · simp at hm
        obtain ⟨rfl, rfl, rfl⟩ := hm
        exact ⟨rfl, hr, hcm⟩
      · simp at hm
    · intro b r hm
      simp only [submit_log, render_log, htd, List.mem_append, List.mem_singleton] at hm
      rcases hm with (hm | hm) | hm
      · exact hc b r hm
      · simp at hm
      · simp at hm
        obtain ⟨rfl, rfl⟩ := hm
        exact ⟨rfl, hr⟩

theorem shmInv_release (clk : Clock) (b : BufId) (s s1 : State) (hs : ShmInv s)
    (h : wl_buffer_handle_release clk b s = some s1) : ShmInv s1 := by
  obtain ⟨htd, hb, hf, hp, hc⟩ := hs
  simp only [wl_buffer_handle_release, htd] at h
  refine shmInv_renderTestDraw clk _ s1 ?_ (by simpa using h)
  refine ⟨rfl, hb, ?_, hp, hc⟩
  by_cases hbe : shm0 = b
  · subst hbe
    simp
  · simpa [hbe] using hf

theorem shmInv_done (clk : Clock) (b : BufId) (s s1 : State) (hs : ShmInv s)
    (h : wl_callback_handle_done clk b s = some s1) : ShmInv s1 := by
  obtain ⟨htd, hb, hf, hp, hc⟩ := hs
  have hf3 : ((store s.bufs b { s.bufs b with callbacked := true }) shm0).commited = false →
      ((store s.bufs b { s.bufs b with callbacked := true }) shm0).realeased = true := by
    by_cases hbe : shm0 = b
    · subst hbe
      simpa using hf
    · simpa [hbe] using hf
  simp only [wl_callback_handle_done, htd, hb] at h
  split at h
  · cases h
    exact ⟨rfl, rfl, hf3, hp, hc⟩
  · split at h
    · rename_i hcm
      cases h
      have hcm0 : ((store s.bufs b { s.bufs b with callbacked := true }) shm0).commited = false := by
        simpa [shm0] using hcm
      refine ⟨rfl, rfl, ?_, ?_, ?_⟩
      · simp [shm0]
      · intro b1 r c hm
        simp only [submit_log, List.mem_append] at hm
        rcases hm with hm | hm
        · exact hp b1 r c hm
        · simp at hm
      · intro b1 r hm
        simp only [submit_log, List.mem_append] at hm
        rcases hm with hm | hm
        · exact hc b1 r hm
        · simp at hm
          obtain ⟨rfl, rfl⟩ := hm
          exact ⟨rfl, hf3 hcm0⟩
    · refine shmInv_renderTestDraw clk _ s1 ?_ h
      exact ⟨rfl, rfl, hf3, hp, hc⟩

theorem shmInv_handle (clk : Clock) (e : Event) (s s1 : State) (hs : ShmInv s)
    (h : handle clk e s = some s1) : ShmInv s1 := by
  cases e with
  | release b => exact shmInv_release clk b s s1 hs h
  | done b => exact shmInv_done clk b s s1 hs h

theorem shmInv_run (clk : Clock) (es : List Event) (s s1 : State) (hs : ShmInv s)
    (h : run clk es s = some s1) : ShmInv s1 := by
  induction es generalizing s with
  | nil =>
    simp only [run, Option.some.injEq] at h
    exact h ▸ hs
  | cons e es ih =>
    simp only [run] at h
    cases he : handle clk e s with
    | none => simp [he] at h
    | some s2 =>
      rw [he] at h
      exact ih s2 (shmInv_handle clk e s s2 hs he) h

/-- C2 (as stated) fails: the first write of the host-memory run starts on a
buffer whose `commited` flag is true, and the GPU-shared run writes into
buffer 0 again while its `realeased` flag is false. -/
theorem write_flags_counterexample :
    (renderTestSHMBegin frozenClock init).map (fun s => s.log) =
        some [Action.paint shm0 true true, Action.frame shm0, Action.commit shm0 true] ∧
      run lateClock [Event.done (dmaSlot 0), Event.done (dmaSlot 1)] dmaSampleBegin =
        some dmaSample ∧
      Action.paint (dmaSlot 0) false true ∈ dmaSample.log := by
  refine ⟨by decide, rfl, by decide⟩

/-- C2 (amended): in a host-memory run, every write of `render` goes to buffer 0
of the pool and starts with `realeased` and `commited` both true. -/
theorem shm_write_flags (clk : Clock) (es : List Event) (sB s : State)
    (hB : renderTestSHMBegin clk init = some sB) (hr : run clk es sB = some s)
    (b : BufId) (r c : Bool) (hm : Action.paint b r c ∈ s.log) :
    b = shm0 ∧ r = true ∧ c = true :=
  (shmInv_run clk es sB s (shmInv_begin clk sB hB) hr).2.2.2.1 b r c hm

/-- Witness for `shm_write_flags`: the second write of a sample run. -/
theorem shm_write_flags_witness :
    Action.paint shm0 true true ∈ shmSample.log ∧ shm0 = shm0 ∧ true = true ∧ true = true :=
  ⟨by decide, shm_write_flags frozenClock [Event.done shm0, Event.release shm0]
    shmSampleBegin shmSample rfl rfl shm0 true true (by decide)⟩

/-! ### Submissions and the `realeased` flag -/

theorem newLog_of_append (s t : State) (l : List Action) (h : t.log = s.log ++ l) :
    newLog s t = l := by
  simp [newLog, h]

/-- The only results `renderTestDraw` can have, for any state. -/
theorem renderTestDraw_cases (clk : Clock) (s s1 : State) (h : renderTestDraw clk s = some s1) :
    (s1 = s) ∨
    (∃ b, s1 = { render clk b s with
        bufs := store s.bufs b { s.bufs b with commited := false } }) ∨
    (∃ b, s1 = submit b { render clk b s with
        bufs := store s.bufs b { s.bufs b with commited := false } }) ∨
    (∃ k p, s1 = { submit p (render clk k s) with
        toplevel := { (submit p (render clk k s)).toplevel with
          i := next s.toplevel.i BUFFS } }) := by
  unfold renderTestDraw at h
  split at h
  · split at h
    · cases h
      exact Or.inr (Or.inr (Or.inr ⟨_, _, rfl⟩))
    · cases h
  · dsimp only at h
    split at h
    · split at h
      · cases h
        exact Or.inr (Or.inl ⟨_, rfl⟩)
      · cases h
        exact Or.inr (Or.inr (Or.inl ⟨_, rfl⟩))
    · cases h
      exact Or.inl rfl

theorem renderTestDraw_commit (clk : Clock) (s s1 : State) (b : BufId) (r : Bool)
    (h : renderTestDraw clk s = some s1) (hc : Action.commit b r ∈ newLog s s1) :
    (s1.bufs b).commited = true ∧ (s1.bufs b).realeased = false := by
  rcases renderTestDraw_cases clk s s1 h with rfl | ⟨b1, rfl⟩ | ⟨b1, rfl⟩ | ⟨k, p, rfl⟩ <;> clear h
  · simp [newLog] at hc
  · simp [newLog, render_log] at hc
    split at hc <;> simp at hc
  · simp [newLog, render_log] at hc
    have hb : b = b1 := by
      rcases hc with hc | hc
      · split at hc <;> simp at hc
      · exact hc.1
    subst hb
    simp
  · simp [newLog, render_log] at hc
    have hb : b = p := by
      rcases hc with hc | hc
      · split at hc <;> simp at hc
      · exact hc.1
    subst hb
    simp

theorem renderTestDraw_realeased (clk : Clock) (s s1 : State) (b : BufId)
    (h : renderTestDraw clk s = some s1) (hr : (s.bufs b).realeased = false) :
    (s1.bufs b).realeased = false := by
  rcases renderTestDraw_cases clk s s1 h with rfl | ⟨b1, rfl⟩ | ⟨b1, rfl⟩ | ⟨k, p, rfl⟩ <;> clear h
  · exact hr
  · by_cases hb : b = b1 <;> simp [hb, hr]
    exact hb ▸ hr
  · by_cases hb : b = b1 <;> simp [hb, hr]
  · by_cases hb : b = p <;> simp [hb, hr]

theorem done_commit (clk : Clock) (cb : BufId) (s s1 : State) (b : BufId) (r : Bool)
    (h : wl_callback_handle_done clk cb s = some s1) (hc : Action.commit b r ∈ newLog s s1) :
    (s1.bufs b).commited = true ∧ (s1.bufs b).realeased = false := by
  simp only [wl_callback_handle_done] at h
  split at h
  · cases h
    simp [newLog] at hc
  · split at h
    · cases h
      simp [newLog] at hc
      obtain ⟨rfl, _⟩ := hc
      simp
    · exact renderTestDraw_commit clk _ s1 b r h hc

theorem done_realeased (clk : Clock) (cb : BufId) (s s1 : State) (b : BufId)
    (h : wl_callback_handle_done clk cb s = some s1) (hr : (s.bufs b).realeased = false) :
    (s1.bufs b).realeased = false := by
  have h3 : ((store s.bufs cb { s.bufs cb with callbacked := true }) b).realeased = false := by
    by_cases hb : b = cb
    · subst hb
      simpa using hr
    · simpa [hb] using hr
  simp only [wl_callback_handle_done] at h
  split at h
  · cases h
    exact h3
  · split at h
    · cases h
      simp only [submit_bufs, store_apply]
      split
      · rfl
      · exact h3
    · exact renderTestDraw_realeased clk _ s1 b h h3

theorem release_realeased (clk : Clock) (rb : BufId) (s s1 : State) (b : BufId)
    (h : wl_buffer_handle_release clk rb s = some s1) (hne : rb ≠ b)
    (hr : (s.bufs b).realeased = false) : (s1.bufs b).realeased = false := by
  have h1 : ((store s.bufs rb { s.bufs rb with realeased := true }) b).realeased = false := by
    simpa [Ne.symm hne] using hr
  simp only [wl_buffer_handle_release] at h
  split at h
  · exact renderTestDraw_realeased clk _ s1 b h h1
  · cases h
    exact h1

theorem handle_realeased (clk : Clock) (e : Event) (s s1 : State) (b : BufId)
    (h : handle clk e s = some s1) (hne : e ≠ Event.release b)
    (hr : (s.bufs b).realeased = false) : (s1.bufs b).realeased = false := by
  cases e with
  | release rb =>
    refine release_realeased clk rb s s1 b h ?_ hr
    rintro rfl
    exact hne rfl
  | done cb => exact done_realeased clk cb s s1 b h hr

theorem run_realeased (clk : Clock) (es : List Event) (s s1 : State) (b : BufId)
    (h : run clk es s = some s1) (hno : Event.release b ∉ es)
    (hr : (s.bufs b).realeased = false) : (s1.bufs b).realeased = false := by
  induction es generalizing s with
  | nil =>
    simp only [run, Option.some.injEq] at h
    exact h ▸ hr
  | cons e es ih =>
    simp only [run] at h
    cases he : handle clk e s with
    | none => simp [he] at h
    | some s2 =>
      rw [he] at h
      simp only [List.mem_cons, not_or] at hno
      exact ih s2 h hno.2 (handle_realeased clk e s s2 b he (fun hh => hno.1 hh.symm) hr)

theorem begin_realeased (clk : Clock) (t t1 : State) (b : BufId)
    (h : renderTestSHMBegin clk t = some t1 ∨ renderTestDMABegin clk t = some t1)
    (hr : (t.bufs b).realeased = false) : (t1.bufs b).realeased = false := by
  rcases h with h | h
  · exact renderTestDraw_realeased clk _ t1 b h hr
  · exact renderTestDraw_realeased clk _ t1 b h hr

/-- C3: a submission made by `renderTestDraw` or by `wl_callback_handle_done`
(either strategy) leaves the submitted buffer with `commited = true` and
`realeased = false`; the flag then stays false through every later sequence of
events that holds no release event for that buffer.  More generally a handler
that turns `realeased` from false to true is the release handler of that
buffer, and the two run starters never turn it to true. -/
theorem submit_flags_until_release (clk : Clock) (s s1 s2 : State) (b : BufId) (r : Bool)
    (es : List Event)
    (hsub : renderTestDraw clk s = some s1 ∨ ∃ cb, wl_callback_handle_done clk cb s = some s1)
    (hc : Action.commit b r ∈ newLog s s1)
    (hrun : run clk es s1 = some s2) (hno : Event.release b ∉ es) :
    (s1.bufs b).commited = true ∧ (s1.bufs b).realeased = false ∧
      (s2.bufs b).realeased = false ∧
      (∀ (t t1 : State) (e : Event), handle clk e t = some t1 →
        (t.bufs b).realeased = false → (t1.bufs b).realeased = true → e = Event.release b) ∧
      (∀ (t t1 : State),
        renderTestSHMBegin clk t = some t1 ∨ renderTestDMABegin clk t = some t1 →
        (t.bufs b).realeased = false → (t1.bufs b).realeased = false) := by
  have h1 : (s1.bufs b).commited = true ∧ (s1.bufs b).realeased = false := by
    rcases hsub with h | ⟨cb, h⟩
    · exact renderTestDraw_commit clk s s1 b r h hc
    · exact done_commit clk cb s s1 b r h hc
  refine ⟨h1.1, h1.2, run_realeased clk es s1 s2 b hrun hno h1.2, ?_, ?_⟩
  · intro t t1 e he hf ht
    by_contra hne
    have := handle_realeased clk e t t1 b he hne hf
    rw [this] at ht
    cases ht
  · intro t t1 h hf
    exact begin_realeased clk t t1 b h hf

/-- Witness for `submit_flags_until_release`: the first submission of buffer 0
followed by its frame callback. -/
theorem submit_flags_until_release_witness :
    (renderTestDraw frozenClock init = some drawSample ∨
        ∃ cb, wl_callback_handle_done frozenClock cb init = some drawSample) ∧
      Action.commit shm0 true ∈ newLog init drawSample ∧
      run frozenClock [Event.done shm0] drawSample = some drawSampleDone ∧
      Event.release shm0 ∉ [Event.done shm0] ∧
      (drawSample.bufs shm0).commited = true ∧ (drawSample.bufs shm0).realeased = false ∧
      (drawSampleDone.bufs shm0).realeased = false :=
  have h := submit_flags_until_release frozenClock init drawSample drawSampleDone shm0 true
    [Event.done shm0] (Or.inl rfl) (by decide) rfl (by decide)
  ⟨Or.inl rfl, by decide, rfl, by decide, h.1, h.2.1, h.2.2.1⟩

/-! ### Outstanding frame callbacks in the host-memory run -/

theorem shmInv_release_entry (b : BufId) (s : State) (hs : ShmInv s) :
    ShmInv { s with bufs := store s.bufs b { s.bufs b with realeased := true } } := by
  obtain ⟨htd, hb, hf, hp, hc⟩ := hs
  refine ⟨htd, hb, ?_, hp, hc⟩
  by_cases hbe : shm0 = b
  · subst hbe
    simp
  · simpa [hbe] using hf

theorem shmInv_done_entry (clk : Clock) (b : BufId) (s : State) (hs : ShmInv s) :
    ShmInv { s with
      callbacks := s.callbacks.erase b
      renderedFrames := s.renderedFrames + 1
      bufs := store s.bufs b { s.bufs b with callbacked := true }
      toplevel := { s.toplevel with pendingCallback := false }
      renderEnd := clk s.clockReads
      clockReads := s.clockReads + 1 } := by
  obtain ⟨htd, hb, hf, hp, hc⟩ := hs
  refine ⟨htd, hb, ?_, hp, hc⟩
  by_cases hbe : shm0 = b
  · subst hbe
    simpa using hf
  · simpa [hbe] using hf

theorem cbInv_renderTestDraw (clk : Clock) (s s1 : State) (hs : ShmInv s) (hcb : CbInv s)
    (h : renderTestDraw clk s = some s1) : CbInv s1 := by
  rcases renderTestDraw_shm clk s hs.1 hs.2.1 with ⟨_, h1⟩ | ⟨_, _, hpc, h1⟩ | ⟨_, _, hpc, h1⟩
  · rw [h1] at h
    cases h
    exact hcb
  · rw [h1] at h
    cases h
    exact hcb
  · rw [h1] at h
    cases h
    simp only [CbInv, hpc] at hcb
    simp [CbInv, hcb]

theorem cbInv_begin (clk : Clock) (sB : State)
    (h : renderTestSHMBegin clk init = some sB) : CbInv sB := by
  simp [renderTestSHMBegin, renderTestDraw, init, render, submit, shm0] at h
  subst h
  simp [CbInv]

theorem cbInv_handle (clk : Clock) (e : Event) (s s1 : State) (hs : ShmInv s) (hcb : CbInv s)
    (hd : deliverable s e = true) (h : handle clk e s = some s1) : CbInv s1 := by
  cases e with
  | release b =>
    simp only [handle, wl_buffer_handle_release] at h
    split at h
    · exact cbInv_renderTestDraw clk _ s1 (shmInv_release_entry b s hs) hcb h
    · rename_i hn
      simp [hs.1] at hn
  | done b =>
    simp only [deliverable, decide_eq_true_eq] at hd
    have hlen : (s.callbacks.erase b).length = 0 := by
      rw [List.length_erase_of_mem hd]
      unfold CbInv at hcb
      split at hcb <;> omega
    have hcb3 : CbInv { s with
        callbacks := s.callbacks.erase b
        renderedFrames := s.renderedFrames + 1
        bufs := store s.bufs b { s.bufs b with callbacked := true }
        toplevel := { s.toplevel with pendingCallback := false }
        renderEnd := clk s.clockReads
        clockReads := s.clockReads + 1 } := by
      simp [CbInv, hlen]
    simp only [handle, wl_callback_handle_done] at h
    split at h
    · cases h
      simp [CbInv, hlen]
    · split at h
      · cases h
        simp [CbInv, hlen]
      · refine cbInv_renderTestDraw clk _ s1 ?_ hcb3 h
        exact shmInv_done_entry clk b s hs

/-- C4: in a host-memory run in which callback events arrive only for callbacks
that were requested and not yet delivered, at most one frame callback is
outstanding in every state, and one is outstanding exactly when
`toplevel->pendingCallback` is true. -/
theorem shm_single_callback (clk : Clock) (es : List Event) (sB s : State)
    (hB : renderTestSHMBegin clk init = some sB) (hwf : wellFormed clk es sB = true)
    (hr : run clk es sB = some s) :
    s.callbacks.length ≤ 1 ∧ (s.callbacks.length = 1 ↔ s.toplevel.pendingCallback = true) := by
  have key : ∀ (es : List Event) (t : State), ShmInv t → CbInv t →
      wellFormed clk es t = true → run clk es t = some s → CbInv s := by
    intro es
    induction es with
    | nil =>
      intro t _ hcb _ h
      simp only [run, Option.some.injEq] at h
      exact h ▸ hcb
    | cons e es ih =>
      intro t hs hcb hwf h
      simp only [run] at h
      simp only [wellFormed, Bool.and_eq_true] at hwf
      cases he : handle clk e t with
      | none => simp [he] at h
      | some t1 =>
        rw [he] at h hwf
        exact ih t1 (shmInv_handle clk e t t1 hs he) (cbInv_handle clk e t t1 hs hcb hwf.1 he)
          hwf.2 h
  have hcb := key es sB (shmInv_begin clk sB hB) (cbInv_begin clk sB hB) hwf hr
  unfold CbInv at hcb
  split at hcb <;> simp_all

/-- Witness for `shm_single_callback`: a sample run of two events. -/
theorem shm_single_callback_witness :
    renderTestSHMBegin frozenClock init = some shmSampleBegin ∧
      wellFormed frozenClock [Event.done shm0, Event.release shm0] shmSampleBegin = true ∧
      run frozenClock [Event.done shm0, Event.release shm0] shmSampleBegin = some shmSample ∧
      shmSample.callbacks.length ≤ 1 ∧
      (shmSample.callbacks.length = 1 ↔ shmSample.toplevel.pendingCallback = true) :=
  ⟨rfl, by decide, rfl, shm_single_callback frozenClock [Event.done shm0, Event.release shm0]
    shmSampleBegin shmSample rfl (by decide) rfl⟩

/-! ### Fences around the write sections -/

theorem toIdx_mod (m : Nat) :
    toIdx ((m % 3 : Nat) : Int) = some ⟨m % 3, Nat.mod_lt m (by decide)⟩ := by
  have h : m % 3 = 0 ∨ m % 3 = 1 ∨ m % 3 = 2 := by omega
  rcases h with h | h | h <;> simp [toIdx, h]

theorem next_mod (m : Nat) :
    next ((m % 3 : Nat) : Int) BUFFS = (((m + 1) % 3 : Nat) : Int) := by
  have h : m % 3 = 0 ∨ m % 3 = 1 ∨ m % 3 = 2 := by omega
  rcases h with h | h | h
  · have h1 : (m + 1) % 3 = 1 := by omega
    simp [next, BUFFS, h, h1]
  · have h1 : (m + 1) % 3 = 2 := by omega
    simp [next, BUFFS, h, h1]
  · have h1 : (m + 1) % 3 = 0 := by omega
    simp [next, BUFFS, h, h1]

theorem prev_mod (m : Nat) :
    prev (((m + 1) % 3 : Nat) : Int) BUFFS = ((m % 3 : Nat) : Int) := by
  have h : m % 3 = 0 ∨ m % 3 = 1 ∨ m % 3 = 2 := by omega
  rcases h with h | h | h
  · have h1 : (m + 1) % 3 = 1 := by omega
    simp [prev, BUFFS, h, h1]
  · have h1 : (m + 1) % 3 = 2 := by omega
    simp [prev, BUFFS, h, h1]
  · have h1 : (m + 1) % 3 = 0 := by omega
    simp [prev, BUFFS, h, h1]

/-- In GPU-shared mode with the cursor on slot `(n + 2) mod 3`, `renderTestDraw`
paints that slot and submits slot `(n + 1) mod 3`. -/
theorem renderTestDraw_dma (clk : Clock) (s : State) (n : Nat) (htd : s.testingDMA = true)
    (hb : s.toplevel.buffers = PoolSel.dma) (hi : s.toplevel.i = (((n + 2) % 3 : Nat) : Int)) :
    renderTestDraw clk s = some
      { submit (dmaSlot (n + 1)) (render clk (dmaSlot (n + 2)) s) with
        toplevel := { (submit (dmaSlot (n + 1)) (render clk (dmaSlot (n + 2)) s)).toplevel with
          i := (((n + 3) % 3 : Nat) : Int) } } := by
  unfold renderTestDraw
  have hp : prev s.toplevel.i BUFFS = (((n + 1) % 3 : Nat) : Int) := by
    rw [hi]
    exact prev_mod (n + 1)
  have hn : next s.toplevel.i BUFFS = (((n + 3) % 3 : Nat) : Int) := by
    rw [hi]
    exact next_mod (n + 2)
  simp only [htd, if_true, hp]
  rw [hi, toIdx_mod, toIdx_mod]
  simp only [render_toplevel, submit_i, hb, dmaSlot]
  rw [hn]

theorem paintTargets_append (l1 l2 : List Action) :
    paintTargets (l1 ++ l2) = paintTargets l1 ++ paintTargets l2 := by
  simp [paintTargets, List.filterMap_append]

theorem commitTargets_append (l1 l2 : List Action) :
    commitTargets (l1 ++ l2) = commitTargets l1 ++ commitTargets l2 := by
  simp [commitTargets, List.filterMap_append]

/-- What one GPU-shared `renderTestDraw` adds to the log. -/
theorem renderTestDraw_dma_log (clk : Clock) (s s1 : State) (n : Nat)
    (htd : s.testingDMA = true) (hb : s.toplevel.buffers = PoolSel.dma)
    (hi : s.toplevel.i = (((n + 2) % 3 : Nat) : Int))
    (h : renderTestDraw clk s = some s1) :
    s1.log = s.log ++
      [Action.dmaWriteBegin (dmaSlot (n + 2)),
        Action.paint (dmaSlot (n + 2)) (s.bufs (dmaSlot (n + 2))).realeased
          (s.bufs (dmaSlot (n + 2))).commited,
        Action.dmaWriteEnd (dmaSlot (n + 2)),
        Action.frame (dmaSlot (n + 1)),
        Action.commit (dmaSlot (n + 1)) (s.bufs (dmaSlot (n + 1))).realeased] ∧
      s1.testingDMA = true ∧ s1.toplevel.buffers = PoolSel.dma ∧
      s1.toplevel.i = (((n + 3) % 3 : Nat) : Int) ∧ s1.writes = s.writes + 1 := by
  rw [renderTestDraw_dma clk s n htd hb hi] at h
  cases h
  simp [render_log, htd, hb]

theorem dmaInv_renderTestDraw (clk : Clock) (s s1 : State) (hs : DmaInv s)
    (h : renderTestDraw clk s = some s1) : DmaInv s1 := by
  obtain ⟨htd, hb, n, hp, hc, hi, hw⟩ := hs
  obtain ⟨hl, htd1, hb1, hi1, hw1⟩ := renderTestDraw_dma_log clk s s1 n htd hb hi h
  refine ⟨htd1, hb1, n + 1, ?_, ?_, hi1, ?_⟩
  · rw [hl, paintTargets_append, hp, List.range_succ (n + 2), List.map_append]
    simp [paintTargets]
  · rw [hl, commitTargets_append, hc, List.range_succ (n + 1), List.map_append]
    simp [commitTargets]
  · rw [hw1, hw]
    push_cast
    ring

theorem dmaInv_begin (clk : Clock) (s0 : State) :
    ∃ sB, renderTestDMABegin clk s0 = some sB ∧ DmaInv sB := by
  unfold renderTestDMABegin
  dsimp only
  refine ⟨_, renderTestDraw_dma clk _ 2 rfl rfl rfl, rfl, rfl, 0, ?_, ?_, ?_, ?_⟩
  · simp [render_log, paintTargets, dmaSlot]
    rfl
  · simp [render_log, commitTargets, dmaSlot]
    rfl
  · rfl
  · simp

theorem dmaInv_handle (clk : Clock) (e : Event) (s : State) (hs : DmaInv s) :
    ∃ s1, handle clk e s = some s1 ∧ DmaInv s1 := by
  cases e with
  | release b =>
    simp only [handle, wl_buffer_handle_release]
    split
    · rename_i hn
      simp [hs.1] at hn
    · exact ⟨_, rfl, hs⟩
  | done b =>
    have hs3 : DmaInv { s with
        callbacks := s.callbacks.erase b
        renderedFrames := s.renderedFrames + 1
        bufs := store s.bufs b { s.bufs b with callbacked := true }
        toplevel := { s.toplevel with pendingCallback := false }
        renderEnd := clk s.clockReads
        clockReads := s.clockReads + 1 } := hs
    simp only [handle, wl_callback_handle_done]
    split
    · exact ⟨_, rfl, hs⟩
    · split
      · rename_i hn
        simp [hs.1] at hn
      · obtain ⟨htd, hb, n, hp, hc, hi, hw⟩ := hs3
        have h := renderTestDraw_dma clk _ n htd hb hi
        exact ⟨_, h, dmaInv_renderTestDraw clk _ _ ⟨htd, hb, n, hp, hc, hi, hw⟩ h⟩

theorem dmaInv_run (clk : Clock) (es : List Event) (s : State) (hs : DmaInv s) :
    ∃ s1, run clk es s = some s1 ∧ DmaInv s1 := by
  induction es generalizing s with
  | nil => exact ⟨s, rfl, hs⟩
  | cons e es ih =>
    obtain ⟨s1, h1, hs1⟩ := dmaInv_handle clk e s hs
    obtain ⟨s2, h2, hs2⟩ := ih s1 hs1
    exact ⟨s2, by simp [run, h1, h2], hs2⟩

theorem getLast_map_range (n : Nat) :
    ((List.range (n + 1)).map dmaSlot).getLast? = some (dmaSlot n) := by
  simp [List.range_succ]

/-- C7: every GPU-shared run returns, and in each of its states (after
`renderTestDMABegin` and after any sequence of events) the writes are one more
than the submissions, the `k`-th write and the `k`-th submission (from 0) both
target slot `k mod 3`, the last written slot is `next` of the last submitted
slot, and the cursor `toplevel->i` is `next` of the last written slot. -/
theorem dma_one_ahead (clk : Clock) (s0 : State) (es : List Event) :
    ∃ sB s, renderTestDMABegin clk s0 = some sB ∧ run clk es sB = some s ∧
      (paintTargets s.log).length = (commitTargets s.log).length + 1 ∧
      s.writes = ((paintTargets s.log).length : Int) ∧
      paintTargets s.log = (List.range (paintTargets s.log).length).map dmaSlot ∧
      commitTargets s.log = (List.range (commitTargets s.log).length).map dmaSlot ∧
      ∃ r c : Fin 3, (paintTargets s.log).getLast? = some ⟨PoolSel.dma, r⟩ ∧
        (commitTargets s.log).getLast? = some ⟨PoolSel.dma, c⟩ ∧
        ((r : Nat) : Int) = next ((c : Nat) : Int) BUFFS ∧
        s.toplevel.i = next ((r : Nat) : Int) BUFFS := by
  obtain ⟨sB, hB, hsB⟩ := dmaInv_begin clk s0
  obtain ⟨s, hr, _, _, n, hp, hc, hi, hw⟩ := dmaInv_run clk es sB hsB
  have hpl : (paintTargets s.log).length = n + 2 := by simp [hp]
  have hcl : (commitTargets s.log).length = n + 1 := by simp [hc]
  refine ⟨sB, s, hB, hr, by omega, by rw [hw, hpl], by rw [hpl, hp], by rw [hcl, hc],
    ⟨(n + 1) % 3, Nat.mod_lt _ (by decide)⟩, ⟨n % 3, Nat.mod_lt _ (by decide)⟩, ?_, ?_, ?_, ?_⟩
  · rw [hp, getLast_map_range (n + 1)]
    rfl
  · rw [hc, getLast_map_range n]
    rfl
  · exact (next_mod n).symm
  · rw [hi]
    exact (next_mod (n + 1)).symm

/-- C6 (as stated) fails: in the GPU-shared run of the sample program, the
first frame callback (budget not met) paints slot 2 and submits slot 1, the
buffer painted before, not the one just painted. -/
theorem dma_callback_counterexample :
    (renderTestSHMBegin lateClock init).bind (run lateClock [Event.done shm0]) =
        some shmFinished ∧
      nextRun lateClock shmFinished = some dmaSampleBegin ∧
      callback_elapsed_ns dmaSampleBegin.renderStart (lateClock dmaSampleBegin.clockReads) <
        1000000000 * 10 ∧
      (wl_callback_handle_done lateClock (dmaSlot 0) dmaSampleBegin).map (newLog dmaSampleBegin) =
        some [Action.dmaWriteBegin (dmaSlot 2), Action.paint (dmaSlot 2) true true,
          Action.dmaWriteEnd (dmaSlot 2), Action.frame (dmaSlot 1),
          Action.commit (dmaSlot 1) true] := by
  refine ⟨rfl, rfl, by decide, by decide⟩

/-- C6 (amended): in a GPU-shared run, a frame callback at which the budget
check fails makes the handler, whatever the flags of the buffers are, paint the
slot `toplevel->i`, which is `next` of the slot painted last, and submit the
slot painted last (`prev` of the cursor), in that order and in the same call. -/
theorem dma_callback_renders_ahead (clk : Clock) (s0 sB s : State) (es : List Event)
    (cb : BufId) (m : BufId → Buffer)
    (hB : renderTestDMABegin clk s0 = some sB) (hr : run clk es sB = some s)
    (hne : callback_elapsed_ns s.renderStart (clk s.clockReads) < 1000000000 * 10) :
    ∃ (k p : Fin 3) (s1 : State) (r c rp : Bool),
      wl_callback_handle_done clk cb { s with bufs := m } = some s1 ∧
      (paintTargets s.log).getLast? = some ⟨PoolSel.dma, p⟩ ∧
      toIdx s.toplevel.i = some k ∧
      toIdx (prev s.toplevel.i BUFFS) = some p ∧
      ((k : Nat) : Int) = next ((p : Nat) : Int) BUFFS ∧
      newLog s s1 =
        [Action.dmaWriteBegin ⟨PoolSel.dma, k⟩, Action.paint ⟨PoolSel.dma, k⟩ r c,
          Action.dmaWriteEnd ⟨PoolSel.dma, k⟩, Action.frame ⟨PoolSel.dma, p⟩,
          Action.commit ⟨PoolSel.dma, p⟩ rp] := by
  obtain ⟨sB1, hB1, hsB⟩ := dmaInv_begin clk s0
  rw [hB] at hB1
  cases hB1
  obtain ⟨s2, hr2, htd, hb, n, hp, hc, hi, hw⟩ := dmaInv_run clk es sB hsB
  rw [hr] at hr2
  cases hr2
  have key : ∀ t : State, t.testingDMA = true → t.toplevel.buffers = PoolSel.dma →
      t.toplevel.i = (((n + 2) % 3 : Nat) : Int) → t.log = s.log →
      ∃ (s1 : State) (r c rp : Bool), renderTestDraw clk t = some s1 ∧
        newLog s s1 =
          [Action.dmaWriteBegin (dmaSlot (n + 2)), Action.paint (dmaSlot (n + 2)) r c,
            Action.dmaWriteEnd (dmaSlot (n + 2)), Action.frame (dmaSlot (n + 1)),
            Action.commit (dmaSlot (n + 1)) rp] := by
    intro t h1 h2 h3 h4
    have hd := renderTestDraw_dma clk t n h1 h2 h3
    obtain ⟨hl, _⟩ := renderTestDraw_dma_log clk t _ n h1 h2 h3 hd
    exact ⟨_, _, _, _, hd, newLog_of_append s _ _ (by rw [hl, h4])⟩
  obtain ⟨s1, r, c, rp, hd, hl⟩ := key { s with
      callbacks := s.callbacks.erase cb
      renderedFrames := s.renderedFrames + 1
      bufs := store m cb { m cb with callbacked := true }
      toplevel := { s.toplevel with pendingCallback := false }
      renderEnd := clk s.clockReads
      clockReads := s.clockReads + 1 } htd hb hi rfl
  refine ⟨⟨(n + 2) % 3, Nat.mod_lt _ (by decide)⟩, ⟨(n + 1) % 3, Nat.mod_lt _ (by decide)⟩,
    s1, r, c, rp, ?_, ?_, ?_, ?_, ?_, hl⟩
  · simp only [wl_callback_handle_done]
    rw [if_neg (not_le.2 hne), if_neg (by simp [htd])]
    exact hd
  · rw [hp, getLast_map_range (n + 1)]
    rfl
  · rw [hi]
    exact toIdx_mod (n + 2)
  · rw [hi, prev_mod (n + 1)]
    exact toIdx_mod (n + 1)
  · exact (next_mod (n + 1)).symm

/-- Witness for `dma_callback_renders_ahead`: the first frame callback of the
GPU-shared run of the sample program. -/
theorem dma_callback_renders_ahead_witness :
    renderTestDMABegin lateClock { shmFinished with benchFinished := false } =
        some dmaSampleBegin ∧
      run lateClock [] dmaSampleBegin = some dmaSampleBegin ∧
      callback_elapsed_ns dmaSampleBegin.renderStart (lateClock dmaSampleBegin.clockReads) <
        1000000000 * 10 ∧
      ∃ (k p : Fin 3) (s1 : State) (r c rp : Bool),
        wl_callback_handle_done lateClock (dmaSlot 0)
            { dmaSampleBegin with bufs := dmaSampleBegin.bufs } = some s1 ∧
          (paintTargets dmaSampleBegin.log).getLast? = some ⟨PoolSel.dma, p⟩ ∧
          toIdx dmaSampleBegin.toplevel.i = some k ∧
          toIdx (prev dmaSampleBegin.toplevel.i BUFFS) = some p ∧
          ((k : Nat) : Int) = next ((p : Nat) : Int) BUFFS ∧
          newLog dmaSampleBegin s1 =
            [Action.dmaWriteBegin ⟨PoolSel.dma, k⟩, Action.paint ⟨PoolSel.dma, k⟩ r c,
              Action.dmaWriteEnd ⟨PoolSel.dma, k⟩, Action.frame ⟨PoolSel.dma, p⟩,
              Action.commit ⟨PoolSel.dma, p⟩ rp] :=
  ⟨rfl, rfl, by decide,
    dma_callback_renders_ahead lateClock { shmFinished with benchFinished := false }
      dmaSampleBegin dmaSampleBegin [] (dmaSlot 0) dmaSampleBegin.bufs rfl rfl (by decide)⟩

/-! ### Submissions of the callback handler in the host-memory run -/

theorem renderTestDraw_total_shm (clk : Clock) (s : State) (htd : s.testingDMA = false) :
    ∃ s1, renderTestDraw clk s = some s1 := by
  unfold renderTestDraw
  rw [if_neg (by simp [htd])]
  dsimp only
  split
  · split
    · exact ⟨_, rfl⟩
    · exact ⟨_, rfl⟩
  · exact ⟨_, rfl⟩

theorem done_total_shm (clk : Clock) (cb : BufId) (s : State) (htd : s.testingDMA = false) :
    ∃ s1, wl_callback_handle_done clk cb s = some s1 := by
  simp only [wl_callback_handle_done]
  split
  · exact ⟨_, rfl⟩
  · split
    · exact ⟨_, rfl⟩
    · exact renderTestDraw_total_shm clk _ htd

/-- C8: in a host-memory run, the frame-callback handler returns, and every
submission it makes, through either of its branches, is of buffer 0 with
`realeased` true when it is submitted; and in every state of the run
`commited = false` implies `realeased = true` for buffer 0. -/
theorem shm_callback_submits_released (clk : Clock) (es : List Event) (sB s : State)
    (cb : BufId) (hB : renderTestSHMBegin clk init = some sB) (hr : run clk es sB = some s) :
    ((s.bufs shm0).commited = false → (s.bufs shm0).realeased = true) ∧
      ∃ s1, wl_callback_handle_done clk cb s = some s1 ∧
        ∀ b r, Action.commit b r ∈ newLog s s1 → b = shm0 ∧ r = true := by
  have hs := shmInv_run clk es sB s (shmInv_begin clk sB hB) hr
  obtain ⟨s1, hd⟩ := done_total_shm clk cb s hs.1
  have hs1 := shmInv_done clk cb s s1 hs hd
  exact ⟨hs.2.2.1, s1, hd, fun b r hm => hs1.2.2.2.2 b r (List.mem_of_mem_drop hm)⟩

/-- Witness for `shm_callback_submits_released`: the callback that finds
buffer 0 painted and unsubmitted resubmits it, released. -/
theorem shm_callback_submits_released_witness :
    renderTestSHMBegin frozenClock init = some shmSampleBegin ∧
      run frozenClock [Event.release shm0] shmSampleBegin = some shmPainted ∧
      wl_callback_handle_done frozenClock shm0 shmPainted = some shmResubmitted ∧
      (shmPainted.bufs shm0).commited = false ∧
      Action.commit shm0 true ∈ newLog shmPainted shmResubmitted ∧
      ((shmPainted.bufs shm0).commited = false → (shmPainted.bufs shm0).realeased = true) ∧
      ∃ s1, wl_callback_handle_done frozenClock shm0 shmPainted = some s1 ∧
        ∀ b r, Action.commit b r ∈ newLog shmPainted s1 → b = shm0 ∧ r = true :=
  ⟨rfl, rfl, rfl, by decide, by decide,
    shm_callback_submits_released frozenClock [Event.release shm0] shmSampleBegin shmPainted
      shm0 rfl rfl⟩

/-! ### The release handler -/

/-- C9: in a host-memory run, a release event for buffer 0 while it is
`commited`: with no callback pending the handler paints buffer 0 once and
resubmits it (flags `realeased = false`, `commited = true`, `callbacked = false`,
`pendingCallback = true`, one more write); with a callback pending it paints
only: no submission, no callback request.  In GPU-shared mode the release
handler only sets `realeased` of the released buffer. -/
theorem release_handler_effect (clk : Clock) (es : List Event) (sB s : State)
    (hB : renderTestSHMBegin clk init = some sB) (hr : run clk es sB = some s)
    (hc : (s.bufs shm0).commited = true) :
    (∃ s1, wl_buffer_handle_release clk shm0 s = some s1 ∧
      (s.toplevel.pendingCallback = false →
        newLog s s1 = [Action.paint shm0 true true, Action.frame shm0, Action.commit shm0 true] ∧
        (s1.bufs shm0).realeased = false ∧ (s1.bufs shm0).commited = true ∧
        (s1.bufs shm0).callbacked = false ∧ s1.toplevel.pendingCallback = true ∧
        s1.writes = s.writes + 1) ∧
      (s.toplevel.pendingCallback = true →
        newLog s s1 = [Action.paint shm0 true true] ∧ s1.callbacks = s.callbacks ∧
        s1.toplevel.pendingCallback = true)) ∧
    (∀ (t : State) (b : BufId), t.testingDMA = true →
      wl_buffer_handle_release clk b t =
        some { t with bufs := store t.bufs b { t.bufs b with realeased := true } }) := by
  have hs := shmInv_run clk es sB s (shmInv_begin clk sB hB) hr
  have hs1 := shmInv_release_entry shm0 s hs
  refine ⟨?_, ?_⟩
  · have hrel : wl_buffer_handle_release clk shm0 s = renderTestDraw clk
        { s with bufs := store s.bufs shm0 { s.bufs shm0 with realeased := true } } := by
      simp only [wl_buffer_handle_release]
      rw [if_pos (by simp [hs.1])]
    rw [hrel]
    rcases renderTestDraw_shm clk _ hs1.1 hs1.2.1 with ⟨h0, _⟩ | ⟨_, _, hpc, h1⟩ | ⟨_, _, hpc, h1⟩
    · simp [hc] at h0
    · refine ⟨_, h1, ?_, ?_⟩
      · intro hn
        rw [hn] at hpc
        cases hpc
      · intro _
        refine ⟨?_, rfl, hpc⟩
        simp [newLog, render_log, hs.1, hc]
    · refine ⟨_, h1, ?_, ?_⟩
      · intro _
        refine ⟨?_, ?_, ?_, ?_, rfl, rfl⟩
        · simp [newLog, render_log, hs.1, hc]
        · simp
        · simp
        · simp
      · intro hn
        rw [hn] at hpc
        cases hpc
  · intro t b htd
    simp only [wl_buffer_handle_release]
    rw [if_neg (by simp [htd])]

/-- Witness for `release_handler_effect`: buffer 0 is released when its frame
callback has already arrived. -/
theorem release_handler_effect_witness :
    renderTestSHMBegin frozenClock init = some shmSampleBegin ∧
      run frozenClock [Event.done shm0] shmSampleBegin = some shmIdle ∧
      (shmIdle.bufs shm0).commited = true ∧ shmIdle.toplevel.pendingCallback = false ∧
      ∃ s1, wl_buffer_handle_release frozenClock shm0 shmIdle = some s1 ∧
        newLog shmIdle s1 =
          [Action.paint shm0 true true, Action.frame shm0, Action.commit shm0 true] ∧
        (s1.bufs shm0).realeased = false ∧ (s1.bufs shm0).commited = true ∧
        (s1.bufs shm0).callbacked = false ∧ s1.toplevel.pendingCallback = true ∧
        s1.writes = shmIdle.writes + 1 :=
  have h := (release_handler_effect frozenClock [Event.done shm0] shmSampleBegin shmIdle
    rfl rfl (by decide)).1
  ⟨rfl, rfl, by decide, by decide, h.choose, h.choose_spec.1, h.choose_spec.2.1 (by decide)⟩

/-! ### Budget expiry -/

/-- C10: at a callback where the elapsed-time check meets the budget,
`wl_callback_handle_done` (either strategy, any state) counts the frame, sets
`benchFinished`, clears `pendingCallback`, and does nothing else to the pacer:
no write, no submission, no callback request (the log is unchanged and the
callback list only loses the delivered callback), the cursor and the
`realeased`/`commited` flags of every buffer are unchanged. -/
theorem callback_expiry_stops (clk : Clock) (s : State) (cb : BufId)
    (hexp : callback_elapsed_ns s.renderStart (clk s.clockReads) ≥ 1000000000 * 10) :
    ∃ s1, wl_callback_handle_done clk cb s = some s1 ∧
      s1.renderedFrames = s.renderedFrames + 1 ∧ s1.benchFinished = true ∧
      s1.toplevel.pendingCallback = false ∧ s1.writes = s.writes ∧
      s1.toplevel.i = s.toplevel.i ∧ s1.toplevel.buffers = s.toplevel.buffers ∧
      s1.testingDMA = s.testingDMA ∧
      (∀ b, (s1.bufs b).realeased = (s.bufs b).realeased ∧
        (s1.bufs b).commited = (s.bufs b).commited) ∧
      s1.log = s.log ∧ s1.callbacks = s.callbacks.erase cb := by
  refine ⟨{ s with
      callbacks := s.callbacks.erase cb
      renderedFrames := s.renderedFrames + 1
      bufs := store s.bufs cb { s.bufs cb with callbacked := true }
      toplevel := { s.toplevel with pendingCallback := false }
      renderEnd := clk s.clockReads
      clockReads := s.clockReads + 1
      benchFinished := true }, ?_, rfl, rfl, rfl, rfl, rfl, rfl, rfl, ?_, rfl, rfl⟩
  · simp only [wl_callback_handle_done]
    rw [if_pos hexp]
  · intro b
    by_cases hb : b = cb
    · subst hb
      simp
    · simp [hb]

/-- Witness for `callback_expiry_stops`: the first callback of the host-memory
run under `lateClock` arrives ten seconds after the start. -/
theorem callback_expiry_stops_witness :
    callback_elapsed_ns shmLateBegin.renderStart (lateClock shmLateBegin.clockReads) ≥
        1000000000 * 10 ∧
      ∃ s1, wl_callback_handle_done lateClock shm0 shmLateBegin = some s1 ∧
        s1.renderedFrames = shmLateBegin.renderedFrames + 1 ∧ s1.benchFinished = true ∧
        s1.toplevel.pendingCallback = false ∧ s1.writes = shmLateBegin.writes ∧
        s1.toplevel.i = shmLateBegin.toplevel.i ∧
        s1.toplevel.buffers = shmLateBegin.toplevel.buffers ∧
        s1.testingDMA = shmLateBegin.testingDMA ∧
        (∀ b, (s1.bufs b).realeased = (shmLateBegin.bufs b).realeased ∧
          (s1.bufs b).commited = (shmLateBegin.bufs b).commited) ∧
        s1.log = shmLateBegin.log ∧ s1.callbacks = shmLateBegin.callbacks.erase shm0 :=
  ⟨by decide, callback_expiry_stops lateClock shmLateBegin shm0 (by decide)⟩

/-! ### The elapsed time of the budget check -/

/-- The budget check of the callback handler only sees whole seconds: its
nanosecond term is always zero. -/
theorem callback_elapsed_ns_eq (a b : Timespec) :
    callback_elapsed_ns a b = (b.tv_sec - a.tv_sec) * 1000000000 := by
  simp [callback_elapsed_ns]

/-- C11 (code defect): with the run started at 0.9 s and the first callback at
10.0 s, 9.1 s have elapsed, yet the handler computes 10 s (it subtracts
`renderEnd.tv_nsec` from itself instead of `renderStart.tv_nsec`) and stops the
run before the budget has expired. -/
theorem callback_stops_early :
    renderTestSHMBegin skewClock init = some shmSkewBegin ∧
      shmSkewBegin.renderStart = ⟨0, 900000000⟩ ∧
      skewClock shmSkewBegin.clockReads = ⟨10, 0⟩ ∧
      diff_ns (skewClock shmSkewBegin.clockReads) shmSkewBegin.renderStart = 9100000000 ∧
      callback_elapsed_ns shmSkewBegin.renderStart (skewClock shmSkewBegin.clockReads) =
        10000000000 ∧
      (wl_callback_handle_done skewClock shm0 shmSkewBegin).map (fun s => s.benchFinished) =
        some true := by
  refine ⟨rfl, by decide, by decide, by decide, by decide, by decide⟩

/-! ### The host-memory run uses buffer 0 only -/

theorem othersInv_renderTestDraw (clk : Clock) (s s1 : State) (hs : ShmInv s)
    (ho : OthersInv s) (h : renderTestDraw clk s = some s1) : OthersInv s1 := by
  rcases renderTestDraw_shm clk s hs.1 hs.2.1 with ⟨_, h1⟩ | ⟨_, _, _, h1⟩ | ⟨_, _, _, h1⟩
  · rw [h1] at h
    cases h
    exact ho
  · rw [h1] at h
    cases h
    refine ⟨fun b hb => ?_, ho.2⟩
    simpa [hb] using ho.1 b hb
  · rw [h1] at h
    cases h
    refine ⟨fun b hb => ?_, ho.2⟩
    simpa [hb] using ho.1 b hb

theorem othersInv_handle (clk : Clock) (e : Event) (s s1 : State) (hs : ShmInv s)
    (ho : OthersInv s) (h : handle clk e s = some s1) : OthersInv s1 := by
  cases e with
  | release rb =>
    simp only [handle, wl_buffer_handle_release] at h
    split at h
    · refine othersInv_renderTestDraw clk _ s1 (shmInv_release_entry rb s hs) ?_ h
      refine ⟨fun b hb => ?_, ho.2⟩
      have hb0 := ho.1 b hb
      by_cases hbr : b = rb
      · subst hbr
        simp only [store_apply, if_true]
        rw [hb0]
        rfl
      · simpa [hbr] using hb0
    · rename_i hn
      simp [hs.1] at hn
  | done cb =>
    have ho3 : OthersInv { s with
        callbacks := s.callbacks.erase cb
        renderedFrames := s.renderedFrames + 1
        bufs := store s.bufs cb { s.bufs cb with callbacked := true }
        toplevel := { s.toplevel with pendingCallback := false }
        renderEnd := clk s.clockReads
        clockReads := s.clockReads + 1 } := by
      refine ⟨fun b hb => ?_, ho.2⟩
      have hb0 := ho.1 b hb
      by_cases hbr : b = cb
      · subst hbr
        simp only [store_apply, if_true]
        rw [hb0]
        rfl
      · simpa [hbr] using hb0
    simp only [handle, wl_callback_handle_done] at h
    split at h
    · cases h
      exact ho3
    · split at h
      · cases h
        refine ⟨fun b hb => ?_, ho.2⟩
        have hb0 := ho3.1 b hb
        have hne : b ≠ (⟨s.toplevel.buffers, 0⟩ : BufId) := by
          rw [hs.2.1]
          exact hb
        simpa [hne] using hb0
      · exact othersInv_renderTestDraw clk _ s1 (shmInv_done_entry clk cb s hs) ho3 h

theorem othersInv_begin (clk : Clock) (sB : State)
    (h : renderTestSHMBegin clk init = some sB) : OthersInv sB := by
  simp [renderTestSHMBegin, renderTestDraw, init, render, submit, shm0] at h
  subst h
  refine ⟨fun b hb => ?_, rfl⟩
  simp only [shm0] at hb
  simp [hb, init]

theorem handle_total_shm (clk : Clock) (e : Event) (s : State) (htd : s.testingDMA = false) :
    ∃ s1, handle clk e s = some s1 := by
  cases e with
  | release rb =>
    simp only [handle, wl_buffer_handle_release]
    split
    · exact renderTestDraw_total_shm clk _ htd
    · exact ⟨_, rfl⟩
  | done cb => exact done_total_shm clk cb s htd

theorem shm_run_total (clk : Clock) (es : List Event) (s : State) (hs : ShmInv s)
    (ho : OthersInv s) : ∃ s1, run clk es s = some s1 ∧ ShmInv s1 ∧ OthersInv s1 := by
  induction es generalizing s with
  | nil => exact ⟨s, rfl, hs, ho⟩
  | cons e es ih =>
    obtain ⟨s1, h1⟩ := handle_total_shm clk e s hs.1
    obtain ⟨s2, h2, hs2, ho2⟩ := ih s1 (shmInv_handle clk e s s1 hs h1)
      (othersInv_handle clk e s s1 hs ho h1)
    exact ⟨s2, by simp [run, h1, h2], hs2, ho2⟩

/-- C12: every host-memory run returns, and in each of its states, whatever
release and callback events were handled (for any buffer), every buffer other
than buffer 0 of the pool still has its initial flags (`commited`, `callbacked`
and `realeased` all true), the cursor `toplevel->i` still has its initial
value, and every write and every submission of the run went to buffer 0. -/
theorem shm_only_buffer_zero (clk : Clock) (es : List Event) :
    ∃ sB s, renderTestSHMBegin clk init = some sB ∧ run clk es sB = some s ∧
      (∀ b, b ≠ shm0 → s.bufs b = init.bufs b ∧ (s.bufs b).commited = true ∧
        (s.bufs b).callbacked = true ∧ (s.bufs b).realeased = true) ∧
      s.toplevel.i = init.toplevel.i ∧
      (∀ b r c, Action.paint b r c ∈ s.log → b = shm0) ∧
      (∀ b r, Action.commit b r ∈ s.log → b = shm0) := by
  obtain ⟨sB, hB⟩ : ∃ sB, renderTestSHMBegin clk init = some sB :=
    renderTestDraw_total_shm clk _ rfl
  obtain ⟨s, hr, hs, ho⟩ := shm_run_total clk es sB (shmInv_begin clk sB hB)
    (othersInv_begin clk sB hB)
  refine ⟨sB, s, hB, hr, fun b hb => ?_, ho.2, fun b r c hm => (hs.2.2.2.1 b r c hm).1,
    fun b r hm => (hs.2.2.2.2 b r hm).1⟩
  have h := ho.1 b hb
  rw [h]
  exact ⟨rfl, rfl, rfl, rfl⟩

/-- Witness for `shm_only_buffer_zero`: a run in which buffers 1 and 2 are
released and called back although they were never submitted. -/
theorem shm_only_buffer_zero_witness :
    ∃ sB s, renderTestSHMBegin frozenClock init = some sB ∧
      run frozenClock [Event.release ⟨PoolSel.shm, 1⟩, Event.done ⟨PoolSel.shm, 2⟩,
        Event.done shm0, Event.release shm0] sB = some s ∧
      (∀ b, b ≠ shm0 → s.bufs b = init.bufs b ∧ (s.bufs b).commited = true ∧
        (s.bufs b).callbacked = true ∧ (s.bufs b).realeased = true) ∧
      s.toplevel.i = init.toplevel.i ∧
      (∀ b r c, Action.paint b r c ∈ s.log → b = shm0) ∧
      (∀ b r, Action.commit b r ∈ s.log → b = shm0) :=
  shm_only_buffer_zero frozenClock [Event.release ⟨PoolSel.shm, 1⟩, Event.done ⟨PoolSel.shm, 2⟩,
    Event.done shm0, Event.release shm0]

/-! ### The frame callback and the `commited` flag -/

/-- The results `renderTestDraw` can have when no callback is pending. -/
theorem renderTestDraw_cases_idle (clk : Clock) (s s1 : State)
    (hp : s.toplevel.pendingCallback = false) (h : renderTestDraw clk s = some s1) :
    (s1 = s) ∨
    (∃ b, s1 = submit b { render clk b s with
        bufs := store s.bufs b { s.bufs b with commited := false } }) ∨
    (∃ k p, s1 = { submit p (render clk k s) with
        toplevel := { (submit p (render clk k s)).toplevel with
          i := next s.toplevel.i BUFFS } }) := by
  unfold renderTestDraw at h
  split at h
  · split at h
    · cases h
      exact Or.inr (Or.inr ⟨_, _, rfl⟩)
    · cases h
  · dsimp only at h
    split at h
    · rw [if_neg (by simp [hp])] at h
      cases h
      exact Or.inr (Or.inl ⟨_, rfl⟩)
    · cases h
      exact Or.inl rfl

/-- After `renderTestDraw` with no callback pending: either nothing was
requested and the state is unchanged, or a frame callback was requested; and no
buffer lost its `commited` flag. -/
theorem renderTestDraw_idle_effect (clk : Clock) (s s1 : State)
    (hp : s.toplevel.pendingCallback = false) (h : renderTestDraw clk s = some s1) :
    (frameTargets (newLog s s1) = [] → s1 = s) ∧
      (∀ b, (s.bufs b).commited = true → (s1.bufs b).commited = true) := by
  rcases renderTestDraw_cases_idle clk s s1 hp h with rfl | ⟨b1, rfl⟩ | ⟨k, p, rfl⟩ <;> clear h
  · exact ⟨fun _ => rfl, fun _ hb => hb⟩
  · refine ⟨fun hf => ?_, fun b hb => ?_⟩
    · simp [newLog, render_log, frameTargets] at hf
    · by_cases hbb : b = b1 <;> simp [hbb, hb]
  · refine ⟨fun hf => ?_, fun b hb => ?_⟩
    · simp [newLog, render_log, frameTargets] at hf
    · by_cases hbb : b = p <;> simp [hbb, hb]

/-- C13 (as stated) fails: in the host-memory run the first frame callback
finds buffer 0 with `commited` true and leaves it true. -/
theorem callback_commited_counterexample :
    renderTestSHMBegin frozenClock init = some shmSampleBegin ∧
      (shmSampleBegin.bufs shm0).commited = true ∧
      wl_callback_handle_done frozenClock shm0 shmSampleBegin = some shmIdle ∧
      (shmIdle.bufs shm0).commited = true ∧ (shmIdle.bufs shm0).callbacked = true ∧
      shmIdle.toplevel.pendingCallback = false := by
  refine ⟨rfl, by decide, rfl, by decide, by decide, by decide⟩

/-- What can be seen after `renderTestDraw` was entered with no callback
pending: `callbacked` changes only for a buffer a frame callback was requested
for, `pendingCallback` tells whether a request was made, and a write is always
followed by a submission. -/
theorem renderTestDraw_idle_seen (clk : Clock) (s s1 : State)
    (hp : s.toplevel.pendingCallback = false) (h : renderTestDraw clk s = some s1) :
    (∀ cb, Action.frame cb ∉ newLog s s1 → (s1.bufs cb).callbacked = (s.bufs cb).callbacked) ∧
      (s1.toplevel.pendingCallback = true ↔ frameTargets (newLog s s1) ≠ []) ∧
      (paintTargets (newLog s s1) ≠ [] → commitTargets (newLog s s1) ≠ []) := by
  rcases renderTestDraw_cases_idle clk s s1 hp h with rfl | ⟨b1, rfl⟩ | ⟨k, p, rfl⟩ <;> clear h
  · refine ⟨fun _ _ => rfl, ?_, ?_⟩
    · simp [newLog, frameTargets, hp]
    · simp [newLog, paintTargets]
  · refine ⟨fun cb hf => ?_, ?_, ?_⟩
    · have hne : cb ≠ b1 := by
        rintro rfl
        apply hf
        simp [newLog, render_log]
      simp [hne]
    · cases htd : s.testingDMA <;> simp [newLog, render_log, frameTargets, htd]
    · cases htd : s.testingDMA <;> simp [newLog, render_log, commitTargets, htd]
  · refine ⟨fun cb hf => ?_, ?_, ?_⟩
    · have hne : cb ≠ p := by
        rintro rfl
        apply hf
        simp [newLog, render_log]
      simp [hne]
    · cases htd : s.testingDMA <;> simp [newLog, render_log, frameTargets, htd]
    · cases htd : s.testingDMA <;> simp [newLog, render_log, commitTargets, htd]

/-- C13 (amended): the frame-callback handler first sets `callbacked` of its
buffer and clears `toplevel->pendingCallback`, and only then makes any new
request: its result is what the rest of the handler (budget check, direct
resubmission or `renderTestDraw`) computes from a state `s3` in which both are
cleared, nothing has been requested yet and no other flag has changed.  Seen at
return: `callbacked` of the callback's buffer is true unless a new callback was
requested for that very buffer, `pendingCallback` is true exactly when a new
callback was requested, and a write made by the handler is followed by a
submission.  The handler does not clear `commited` in either strategy: no
buffer goes from `commited` true to false across it, and in host-memory mode,
when the budget check fails, buffer 0 of the pool has `commited` true at return. -/
theorem callback_keeps_commited (clk : Clock) (s s1 : State) (cb : BufId)
    (hd : wl_callback_handle_done clk cb s = some s1) :
    (∃ s3 : State,
        (s3.bufs cb).callbacked = true ∧ s3.toplevel.pendingCallback = false ∧
        s3.log = s.log ∧ s3.callbacks = s.callbacks.erase cb ∧
        (∀ b, b ≠ cb → s3.bufs b = s.bufs b) ∧
        (s3.bufs cb).commited = (s.bufs cb).commited ∧
        (s3.bufs cb).realeased = (s.bufs cb).realeased ∧
        s3.testingDMA = s.testingDMA ∧ s3.toplevel.buffers = s.toplevel.buffers ∧
        s3.toplevel.i = s.toplevel.i ∧ s3.writes = s.writes ∧
        s3.renderStart = s.renderStart ∧ s3.renderEnd = clk s.clockReads ∧
        (if callback_elapsed_ns s3.renderStart s3.renderEnd ≥ 1000000000 * 10 then
            some { s3 with benchFinished := true }
          else if !s3.testingDMA && !(s3.bufs ⟨s3.toplevel.buffers, 0⟩).commited then
            some (submit ⟨s3.toplevel.buffers, 0⟩ s3)
          else renderTestDraw clk s3) = some s1) ∧
      (Action.frame cb ∉ newLog s s1 → (s1.bufs cb).callbacked = true) ∧
      (s1.toplevel.pendingCallback = true ↔ frameTargets (newLog s s1) ≠ []) ∧
      (paintTargets (newLog s s1) ≠ [] → commitTargets (newLog s s1) ≠ []) ∧
      (∀ b, (s.bufs b).commited = true → (s1.bufs b).commited = true) ∧
      (s.testingDMA = false →
        callback_elapsed_ns s.renderStart (clk s.clockReads) < 1000000000 * 10 →
        (s1.bufs ⟨s.toplevel.buffers, 0⟩).commited = true) := by
  have hc3 : ∀ b, (s.bufs b).commited = true →
      ((store s.bufs cb { s.bufs cb with callbacked := true }) b).commited = true := by
    intro b hb
    by_cases hbb : b = cb
    · subst hbb
      simpa using hb
    · simpa [hbb] using hb
  refine ⟨⟨{ s with
      callbacks := s.callbacks.erase cb
      renderedFrames := s.renderedFrames + 1
      bufs := store s.bufs cb { s.bufs cb with callbacked := true }
      toplevel := { s.toplevel with pendingCallback := false }
      renderEnd := clk s.clockReads
      clockReads := s.clockReads + 1 }, by simp, rfl, rfl, rfl, fun b hb => by simp [hb],
      by simp, by simp, rfl, rfl, rfl, rfl, rfl, rfl, hd⟩, ?_⟩
  simp only [wl_callback_handle_done] at hd
  split at hd
  · rename_i hexp
    cases hd
    refine ⟨fun _ => by simp, by simp [newLog, frameTargets], by simp [newLog, paintTargets],
      hc3, fun _ hlt => absurd hexp (not_le.2 hlt)⟩
  · split at hd
    · cases hd
      refine ⟨fun hf => ?_, by simp [newLog, frameTargets], by simp [newLog, paintTargets],
        fun b hb => ?_, fun _ _ => by simp⟩
      · have hne : cb ≠ (⟨s.toplevel.buffers, 0⟩ : BufId) := by
          rintro rfl
          apply hf
          simp [newLog]
        simp [hne]
      · simp only [submit_bufs, store_apply]
        split
        · rfl
        · exact hc3 b hb
    · rename_i hexp hbr
      obtain ⟨_, h2⟩ := renderTestDraw_idle_effect clk _ s1 rfl hd
      obtain ⟨g1, g2, g3⟩ := renderTestDraw_idle_seen clk _ s1 rfl hd
      refine ⟨fun hf => ?_, g2, g3, fun b hb => h2 b (hc3 b hb), fun htd _ => ?_⟩
      · rw [g1 cb hf]
        simp
      · apply h2
        simp [htd] at hbr
        simpa using hbr

/-- Witness for `callback_keeps_commited`, on both strategies: the host-memory
callback that finds buffer 0 painted and unsubmitted (`commited` false)
resubmits it; the first GPU-shared callback finds `callbacked` of slot 0 false
and a callback pending, requests a callback for slot 1 and leaves `callbacked`
of slot 0 true. -/
theorem callback_keeps_commited_witness :
    (wl_callback_handle_done frozenClock shm0 shmPainted = some shmResubmitted ∧
      (shmPainted.bufs shm0).commited = false ∧
      shmPainted.testingDMA = false ∧
      callback_elapsed_ns shmPainted.renderStart (frozenClock shmPainted.clockReads) <
        1000000000 * 10 ∧
      (∀ b, (shmPainted.bufs b).commited = true → (shmResubmitted.bufs b).commited = true) ∧
      (shmResubmitted.bufs ⟨shmPainted.toplevel.buffers, 0⟩).commited = true) ∧
    (wl_callback_handle_done lateClock (dmaSlot 0) dmaSampleBegin = some dmaFirstDone ∧
      (dmaSampleBegin.bufs (dmaSlot 0)).callbacked = false ∧
      dmaSampleBegin.toplevel.pendingCallback = true ∧
      Action.frame (dmaSlot 0) ∉ newLog dmaSampleBegin dmaFirstDone ∧
      (dmaFirstDone.bufs (dmaSlot 0)).callbacked = true ∧
      (dmaFirstDone.toplevel.pendingCallback = true ↔
        frameTargets (newLog dmaSampleBegin dmaFirstDone) ≠ []) ∧
      paintTargets (newLog dmaSampleBegin dmaFirstDone) ≠ [] ∧
      commitTargets (newLog dmaSampleBegin dmaFirstDone) ≠ []) :=
  have h := callback_keeps_commited frozenClock shmPainted shmResubmitted shm0 rfl
  have g := callback_keeps_commited lateClock dmaSampleBegin dmaFirstDone (dmaSlot 0) rfl
  ⟨⟨rfl, by decide, by decide, by decide, h.2.2.2.2.1, h.2.2.2.2.2 (by decide) (by decide)⟩,
    ⟨rfl, by decide, by decide, by decide, g.2.1 (by decide), g.2.2.1, by decide,
      g.2.2.2.1 (by decide)⟩⟩

/-! ### Events after the budget has expired -/

theorem renderTestDraw_frame (clk : Clock) (s s1 : State)
    (h : renderTestDraw clk s = some s1) :
    s1.renderStart = s.renderStart ∧ s1.benchFinished = s.benchFinished ∧
      s.clockReads ≤ s1.clockReads := by
  rcases renderTestDraw_cases clk s s1 h with rfl | ⟨b1, rfl⟩ | ⟨b1, rfl⟩ | ⟨k, p, rfl⟩ <;> clear h
  · exact ⟨rfl, rfl, le_refl _⟩
  · exact ⟨rfl, rfl, by simp⟩
  · exact ⟨rfl, rfl, by simp⟩
  · exact ⟨rfl, rfl, by simp⟩

theorem expiredInv_handle (clk : Clock) (e : Event) (s s1 : State)
    (hs : ExpiredInv clk s) (h : handle clk e s = some s1) : ExpiredInv clk s1 := by
  have keep : ∀ t : State, t.renderStart = s.renderStart → t.benchFinished = s.benchFinished →
      s.clockReads ≤ t.clockReads → ExpiredInv clk t := by
    intro t h1 h2 h3 hf
    obtain ⟨k, hk, hk2⟩ := hs (h2 ▸ hf)
    exact ⟨k, lt_of_lt_of_le hk h3, h1 ▸ hk2⟩
  cases e with
  | release rb =>
    simp only [handle, wl_buffer_handle_release] at h
    split at h
    · obtain ⟨h1, h2, h3⟩ := renderTestDraw_frame clk _ s1 h
      exact keep s1 h1 h2 h3
    · cases h
      exact keep _ rfl rfl (le_refl _)
  | done cb =>
    simp only [handle, wl_callback_handle_done] at h
    split at h
    · rename_i hexp
      cases h
      intro _
      exact ⟨s.clockReads, Nat.lt_succ_self _, hexp⟩
    · split at h
      · cases h
        exact keep _ rfl rfl (Nat.le_succ _)
      · obtain ⟨h1, h2, h3⟩ := renderTestDraw_frame clk _ s1 h
        exact keep s1 h1 h2 (le_trans (Nat.le_succ _) h3)

theorem expiredInv_run (clk : Clock) (es : List Event) (s s1 : State)
    (hs : ExpiredInv clk s) (h : run clk es s = some s1) : ExpiredInv clk s1 := by
  induction es generalizing s with
  | nil =>
    simp only [run, Option.some.injEq] at h
    exact h ▸ hs
  | cons e es ih =>
    simp only [run] at h
    cases he : handle clk e s with
    | none => simp [he] at h
    | some s2 =>
      rw [he] at h
      exact ih s2 (expiredInv_handle clk e s s2 hs he) h

theorem lateClock_monotone : SecondsMonotone lateClock := by
  intro n m hnm
  simp only [lateClock]
  by_cases hn : n < 3
  · by_cases hm : m < 3
    · simp [hn, hm]
    · simp [hn, hm]
  · have hm : ¬ m < 3 := by omega
    simp [hn, hm]

/-- C14 (as stated) fails: in the host-memory run of the sample program the
first callback meets the budget and sets `benchFinished`; the release of
buffer 0 handled next still paints the buffer, requests a frame callback and
commits it. -/
theorem release_after_expiry_counterexample :
    (renderTestSHMBegin lateClock init).bind (run lateClock [Event.done shm0]) =
        some shmFinished ∧
      shmFinished.benchFinished = true ∧ shmFinished.writes = 1 ∧
      (wl_buffer_handle_release lateClock shm0 shmFinished).map
          (fun s1 => (newLog shmFinished s1, s1.writes)) =
        some ([Action.paint shm0 true true, Action.frame shm0, Action.commit shm0 true], 2) := by
  refine ⟨rfl, by decide, by decide, by decide⟩

/-- C14 (amended): in a run started with `benchFinished` false and read off a
clock whose seconds never go back, once `benchFinished` is true every callback
event handled afterwards meets the budget check again and initiates nothing
(log and write count unchanged, no callback requested), and in GPU-shared mode
every release event initiates nothing either. -/
theorem after_expiry_no_render (clk : Clock) (hmono : SecondsMonotone clk) (sB s : State)
    (es : List Event) (hB0 : sB.benchFinished = false) (hr : run clk es sB = some s)
    (hf : s.benchFinished = true) :
    (∀ cb, ∃ s1, wl_callback_handle_done clk cb s = some s1 ∧ s1.log = s.log ∧
      s1.writes = s.writes ∧ s1.callbacks = s.callbacks.erase cb ∧
      s1.benchFinished = true) ∧
    (s.testingDMA = true → ∀ b, ∃ s1, wl_buffer_handle_release clk b s = some s1 ∧
      s1.log = s.log ∧ s1.writes = s.writes ∧ s1.callbacks = s.callbacks ∧
      s1.benchFinished = true) := by
  have hinv : ExpiredInv clk s := by
    refine expiredInv_run clk es sB s ?_ hr
    intro h
    rw [hB0] at h
    cases h
  obtain ⟨k, hk, hk2⟩ := hinv hf
  have hexp : callback_elapsed_ns s.renderStart (clk s.clockReads) ≥ 1000000000 * 10 := by
    rw [callback_elapsed_ns_eq] at hk2 ⊢
    have := hmono k s.clockReads (le_of_lt hk)
    omega
  refine ⟨fun cb => ?_, fun htd b => ?_⟩
  · refine ⟨{ s with
        callbacks := s.callbacks.erase cb
        renderedFrames := s.renderedFrames + 1
        bufs := store s.bufs cb { s.bufs cb with callbacked := true }
        toplevel := { s.toplevel with pendingCallback := false }
        renderEnd := clk s.clockReads
        clockReads := s.clockReads + 1
        benchFinished := true }, ?_, rfl, rfl, rfl, rfl⟩
    simp only [wl_callback_handle_done]
    rw [if_pos hexp]
  · refine ⟨{ s with bufs := store s.bufs b { s.bufs b with realeased := true } },
      ?_, rfl, rfl, rfl, hf⟩
    simp only [wl_buffer_handle_release]
    rw [if_neg (by simp [htd])]

/-- Witness for `after_expiry_no_render`: the sample host-memory run after its
first callback, which met the budget. -/
theorem after_expiry_no_render_witness :
    SecondsMonotone lateClock ∧ shmLateBegin.benchFinished = false ∧
      run lateClock [Event.done shm0] shmLateBegin = some shmFinished ∧
      shmFinished.benchFinished = true ∧
      ∃ s1, wl_callback_handle_done lateClock shm0 shmFinished = some s1 ∧
        s1.log = shmFinished.log ∧ s1.writes = shmFinished.writes ∧
        s1.callbacks = shmFinished.callbacks.erase shm0 ∧ s1.benchFinished = true :=
  ⟨lateClock_monotone, by decide, rfl, by decide,
    (after_expiry_no_render lateClock lateClock_monotone shmLateBegin shmFinished
      [Event.done shm0] (by decide) rfl (by decide)).1 shm0⟩

end Pacer
